import Mathlib

/-!
Verification of the log-processing core of `python_orchestrator/log_processor/pure_python.py`
(class `PurePythonProcessor`): `parse_logs`, `validate_logs`, `compute_stats`,
`filter_logs`, `batch_process`.

Shallow embedding conventions:
* A raw input line is abstracted by the outcome of `json.loads` on it (`Line` below):
  either a decoded JSON value or a `json.JSONDecodeError` carrying a message.  None of
  the verified operations inspects the raw text other than through `json.loads`.
* JSON values keep Python's distinction between `int`, `float` and `bool`
  (`isinstance(x, int)` is true for `bool`, `isinstance(x, (int, float))` is true for
  all three).  Python floats are modelled as exact rationals; the float literals
  `0.50`, `0.95`, `0.99` used for percentile indices are modelled as the exact
  rationals they denote (their IEEE-754 rounding is not observable for the batch
  sizes and claims treated here).
* Fallible Python code (uncaught `ValueError` / `TypeError` / `AttributeError`)
  is modelled with `Except PyErr`.  Message texts produced by Python f-strings are
  reproduced where they are simple; the interpreter-generated texts of `TypeError`s
  raised by `sort`/`sum`/comparisons are abstracted by fixed descriptive strings
  (the claims never distinguish error messages, only that the call aborts).
* Validation rejection strings `f"Line {idx}: ..."` are injectively determined by the
  1-based position, the reason kind, and the offending value; they are modelled by the
  structured `Rejection` record.
-/

namespace PurePython

/-- JSON values as produced by Python's `json.loads`: `null`, booleans, integers,
floats (exact rationals here), strings, arrays, and objects (string-keyed mappings,
represented as association lists; `json.loads` yields at most one binding per key). -/
inductive JVal : Type where
  | null
  | bool (b : Bool)
  | int (n : ℤ)
  | float (q : ℚ)
  | str (s : String)
  | arr (elems : List JVal)
  | obj (fields : List (String × JVal))

/-- A raw input line, abstracted by the outcome of `json.loads` on it: `ok v` when the
line decodes to the JSON value `v`, `err msg` when `json.loads` raises a
`JSONDecodeError` rendered as `msg`. -/
inductive Line : Type where
  | ok (v : JVal)
  | err (msg : String)

/-- Uncaught Python exceptions of the processor: `ValueError` (raised explicitly by
`parse_logs` and `compute_stats`), `TypeError` (raised by Python on ill-typed
arithmetic, comparison or hashing), `AttributeError` (raised by `x.get(...)` when a
decoded value is not a dict). -/
inductive PyErr : Type where
  | valueError (msg : String)
  | typeError (msg : String)
  | attributeError (msg : String)

/-- Python's `type(x).__name__` for a decoded JSON value, as used in error messages. -/
def JVal.typeName : JVal → String
  | .null => "NoneType"
  | .bool _ => "bool"
  | .int _ => "int"
  | .float _ => "float"
  | .str _ => "str"
  | .arr _ => "list"
  | .obj _ => "dict"

/-- Python truthiness of a decoded JSON value (`None`, `False`, `0`, `0.0`, `""`,
`[]`, `{}` are falsy). -/
def JVal.truthy : JVal → Bool
  | .null => false
  | .bool b => b
  | .int n => n != 0
  | .float q => q != 0
  | .str s => s != ""
  | .arr l => !l.isEmpty
  | .obj l => !l.isEmpty

/-- Model of `isinstance(x, (int, float))`: true for Python ints, floats and bools
(`bool` is a subclass of `int`). -/
def JVal.isNum : JVal → Bool
  | .int _ => true
  | .float _ => true
  | .bool _ => true
  | _ => false

/-- Model of `isinstance(x, int)`: true for Python ints and bools. -/
def JVal.isInt : JVal → Bool
  | .int _ => true
  | .bool _ => true
  | _ => false

/-- The numeric value of a Python number (`True == 1`, `False == 0`); `0` on
non-numbers (never used on them: guarded by `isNum`/`isInt` short-circuits exactly as
the Python code guards with `isinstance`). -/
def JVal.numVal : JVal → ℚ
  | .int n => (n : ℚ)
  | .float q => q
  | .bool b => if b then 1 else 0
  | _ => 0

/-- Whether the value is Python's `None`. -/
def JVal.isNull : JVal → Bool
  | .null => true
  | _ => false

/-- Whether the value is a JSON object (Python dict). -/
def JVal.isObj : JVal → Bool
  | .obj _ => true
  | _ => false

/-- Key lookup in a decoded JSON object (`json.loads` yields at most one binding per
key, so first-match lookup is the dict lookup). -/
def lookupField (fields : List (String × JVal)) (key : String) : Option JVal :=
  List.lookup key fields

/-- Model of `x.get(key, default)`: succeeds on a dict, raises `AttributeError` on every other
decoded JSON value (ints, lists, strings, `None`, ... have no `.get`). -/
def dictGet (v : JVal) (key : String) (dflt : JVal) : Except PyErr JVal :=
  match v with
  | .obj fs => .ok ((lookupField fs key).getD dflt)
  | _ => .error (.attributeError ("'" ++ v.typeName ++ "' object has no attribute 'get'"))

/-- Model of `PurePythonProcessor.parse_logs`: `json.loads` each line, collecting the decoded
entries in order; on the first line whose decoding fails it raises
`ValueError(f"Parse error: {e}")`, abandoning the whole batch. -/
def parse_logs : List Line → Except PyErr (List JVal)
  | [] => .ok []
  | .ok v :: rest =>
    match parse_logs rest with
    | .ok vs => .ok (v :: vs)
    | .error e => .error e
  | .err msg :: _ => .error (.valueError ("Parse error: " ++ msg))

/-- The machine-distinguishable taxonomy behind `validate_logs`' rejection strings:
`f"Line {idx}: JSON parse error: {e}"`, `f"Line {idx}: Missing or empty timestamp"`,
`f"Line {idx}: Invalid log level '{level}'. ..."`, `f"Line {idx}: Invalid duration_ms
{duration}. ..."`, `f"Line {idx}: Invalid status_code {status}. ..."`.  Each string is
injectively determined by the position, the constructor and its payload. -/
inductive Reason : Type where
  | parseError (msg : String)
  | missingTimestamp
  | invalidLevel (level : JVal)
  | invalidDuration (duration : JVal)
  | invalidStatusCode (status : JVal)

/-- One entry of the `errors` list of `validate_logs`: the 1-based line position
together with the reason. -/
structure Rejection : Type where
  position : Nat
  reason : Reason

/-- The list `valid_levels = ["ERROR", "WARN", "INFO", "DEBUG"]`. -/
def validLevels : List String := ["ERROR", "WARN", "INFO", "DEBUG"]

/-- Membership test `level in valid_levels` where `level = entry.get('level', '')` may be any decoded
value: Python `==` between a non-string and a string is `False`, so only strings can
be members. -/
def levelValid : JVal → Bool
  | .str s => validLevels.contains s
  | _ => false

/-- The body of `validate_logs`' loop after a successful `json.loads`, checking
timestamp, level, `duration_ms` and `status_code` in order with `continue` after the
first failure.  `entry.get` raises `AttributeError` when the decoded entry is not a
dict (uncaught: only `json.JSONDecodeError` is caught by the loop). -/
def validateEntry (entry : JVal) : Except PyErr (Option Reason) :=
  match dictGet entry "timestamp" .null with
  | .error e => .error e
  | .ok ts =>
    if !ts.truthy then .ok (some .missingTimestamp)
    else
      match dictGet entry "level" (.str "") with
      | .error e => .error e
      | .ok level =>
        if !levelValid level then .ok (some (.invalidLevel level))
        else
          match dictGet entry "duration_ms" .null with
          | .error e => .error e
          | .ok dur =>
            if !dur.isNull && (!dur.isNum || decide (dur.numVal < 0)) then
              .ok (some (.invalidDuration dur))
            else
              match dictGet entry "status_code" .null with
              | .error e => .error e
              | .ok status =>
                if !status.isNull &&
                    (!status.isInt ||
                      !(decide (100 ≤ status.numVal) && decide (status.numVal ≤ 599))) then
                  .ok (some (.invalidStatusCode status))
                else .ok none

/-- One iteration of `validate_logs`' loop at 1-based position `idx`: a line that fails
`json.loads` contributes a `ParseError` rejection (the `except JSONDecodeError` arm);
a decoded line is checked by `validateEntry`. -/
def validateLine (idx : Nat) : Line → Except PyErr (Option Rejection)
  | .err msg => .ok (some ⟨idx, .parseError msg⟩)
  | .ok v =>
    match validateEntry v with
    | .error e => .error e
    | .ok none => .ok none
    | .ok (some r) => .ok (some ⟨idx, r⟩)

/-- The loop of `validate_logs` starting at position `idx`: accumulates
`(valid_count, errors)` over the remaining lines in order. -/
def validateGo (idx : Nat) : List Line → Except PyErr (Nat × List Rejection)
  | [] => .ok (0, [])
  | l :: rest =>
    match validateLine idx l with
    | .error e => .error e
    | .ok res =>
      match validateGo (idx + 1) rest with
      | .error e => .error e
      | .ok (c, errs) =>
        match res with
        | none => .ok (c + 1, errs)
        | some r => .ok (c, r :: errs)

/-- Model of `PurePythonProcessor.validate_logs`: returns `(valid_count, errors)` with 1-based
positions (`enumerate(log_lines, 1)`). -/
def validate_logs (lines : List Line) : Except PyErr (Nat × List Rejection) :=
  validateGo 1 lines

/-- Model of `PythonLogStats`.  The two distributions are Python dicts built in first-occurrence
(insertion) order; Python dict keys identify numerically equal keys (`200 == 200.0 ==
True+199`), so keys are the numeric values.  Durations and averages are rationals
(exact floats). -/
structure LogStats : Type where
  total_count : Nat
  error_count : Nat
  warn_count : Nat
  info_count : Nat
  avg_duration_ms : ℚ
  min_duration_ms : ℚ
  max_duration_ms : ℚ
  p50_duration_ms : ℚ
  p95_duration_ms : ℚ
  p99_duration_ms : ℚ
  status_code_distribution : List (ℚ × Nat)
  error_count_by_code : List (ℚ × Nat)

/-- The statistics population of `compute_stats`: the decoded values of the lines that
`json.loads` accepts (lines that fail to parse are skipped by `continue`). -/
def parsedEntries (lines : List Line) : List JVal :=
  lines.filterMap fun l => match l with | .ok v => some v | .err _ => none

/-- Python `x == s` for a string literal `s`: true only for equal strings. -/
def pyEqStr (v : JVal) (s : String) : Bool :=
  match v with
  | .str t => t == s
  | _ => false

/-- Model of `sum(1 for e in entries if e.get('level') == lvl)`: raises `AttributeError` at the
first non-dict entry. -/
def countLevel (lvl : String) : List JVal → Except PyErr Nat
  | [] => .ok 0
  | e :: rest =>
    match dictGet e "level" .null with
    | .error err => .error err
    | .ok lv =>
      match countLevel lvl rest with
      | .error err => .error err
      | .ok c => .ok ((if pyEqStr lv lvl then 1 else 0) + c)

/-- The `duration_ms` value a single entry contributes to the duration population:
present and not `None` (only meaningful for dict entries). -/
def durOf : JVal → Option JVal
  | .obj fs =>
    match lookupField fs "duration_ms" with
    | some v => if v.isNull then none else some v
    | none => none
  | _ => none

/-- Model of the comprehension collecting `e['duration_ms']` over entries where the
field is present (`'duration_ms' in e`) and not `None`.  A non-dict entry makes the comprehension raise a `TypeError`; this branch
is unreachable inside `compute_stats` because the level counts already raised
`AttributeError` on any non-dict entry. -/
def collectDurations : List JVal → Except PyErr (List JVal)
  | [] => .ok []
  | .obj fs :: rest =>
    match collectDurations rest with
    | .error e => .error e
    | .ok ds =>
      match lookupField fs "duration_ms" with
      | some v => if v.isNull then .ok ds else .ok (v :: ds)
      | none => .ok ds
  | e :: _ => .error (.typeError ("argument of type '" ++ e.typeName ++ "' is not iterable"))

/-- All collected duration values are Python numbers. -/
def allNums (ds : List JVal) : Bool := ds.all JVal.isNum

/-- Model of `sum(durations) / len(durations)` (Python true division). -/
def pyAvg (l : List ℚ) : ℚ := l.sum / l.length

/-- Model of `int(n * q)` for the percentile fractions `q ∈ {0.50, 0.95, 0.99}`: `int()`
truncation on a nonnegative float is the floor. -/
def pctIdx (n : Nat) (q : ℚ) : Nat := ⌊(n : ℚ) * q⌋₊

/-- The duration block of `compute_stats`: on a nonempty duration list, Python sorts in
place (`durations.sort()`), then computes average, `durations[0]`, `durations[-1]` and
the three nearest-rank percentiles at indices `min(int(n*q), n-1)`.  When some
collected value is not a number, Python raises a `TypeError` — either from an
unsupported `<` during the sort or from an unsupported `+` in `sum` — abstracted here
as one `TypeError`; when all values are numbers, the result of Python's (stable) sort
is the unique ascending reordering, modelled by `List.insertionSort`.  On an empty
list the `else` branch reports all six statistics as `0.0`. -/
def durationStats (ds : List JVal) : Except PyErr (ℚ × ℚ × ℚ × ℚ × ℚ × ℚ) :=
  if ds.isEmpty then .ok (0, 0, 0, 0, 0, 0)
  else if !allNums ds then
    .error (.typeError "unsupported comparison or operand on duration_ms values")
  else
    let sorted := List.insertionSort (· ≤ ·) (ds.map JVal.numVal)
    let n := sorted.length
    .ok (pyAvg sorted, sorted.getD 0 0, sorted.getD (n - 1) 0,
      sorted.getD (min (pctIdx n (50 / 100)) (n - 1)) 0,
      sorted.getD (min (pctIdx n (95 / 100)) (n - 1)) 0,
      sorted.getD (min (pctIdx n (99 / 100)) (n - 1)) 0)

/-- The `status_code` field of an entry when the entry is a dict carrying it. -/
def statusOf : JVal → Option JVal
  | .obj fs => lookupField fs "status_code"
  | _ => none

/-- The `status_code` keys contributed to the two distribution dicts, in entry order.
A non-`None` non-numeric status makes `compute_stats` raise a `TypeError`: an
unhashable `list`/`dict` status already fails as a dict key in the
`status_code_distribution` loop, and any other non-number (e.g. a string) fails at
`code >= 400` in the `error_count_by_code` loop that follows immediately; both are
abstracted as one `TypeError` here.  Non-dict entries are unreachable (the level
counts raised first). -/
def statusKeys : List JVal → Except PyErr (List ℚ)
  | [] => .ok []
  | .obj fs :: rest =>
    match lookupField fs "status_code" with
    | some v =>
      if v.isNull then statusKeys rest
      else if v.isNum then
        match statusKeys rest with
        | .error e => .error e
        | .ok ks => .ok (v.numVal :: ks)
      else .error (.typeError ("unhashable or unorderable status_code of type '" ++
        v.typeName ++ "'"))
    | none => statusKeys rest
  | e :: _ =>
    .error (.attributeError ("'" ++ e.typeName ++ "' object has no attribute 'get'"))

/-- Model of `defaultdict(int)` tallying: increment the key in place, appending new keys, so the
resulting dict lists keys in first-occurrence order. -/
def upsert (k : ℚ) : List (ℚ × Nat) → List (ℚ × Nat)
  | [] => [(k, 1)]
  | (k', c) :: rest => if k' == k then (k', c + 1) :: rest else (k', c) :: upsert k rest

/-- Tally a key sequence into a dict in first-occurrence order. -/
def tally (ks : List ℚ) : List (ℚ × Nat) :=
  ks.foldl (fun acc k => upsert k acc) []

/-- Model of `PurePythonProcessor.compute_stats`: parse all lines (skipping undecodable ones),
raise `ValueError("No valid log entries found")` on an empty population, then compute
level counts, the duration block, and the two status-code distributions, in the
statement order of the Python code (so the first failing stage determines the raised
exception). -/
def compute_stats (lines : List Line) : Except PyErr LogStats :=
  let entries := parsedEntries lines
  if entries.isEmpty then .error (.valueError "No valid log entries found")
  else
    match countLevel "ERROR" entries with
    | .error e => .error e
    | .ok ec =>
      match countLevel "WARN" entries with
      | .error e => .error e
      | .ok wc =>
        match countLevel "INFO" entries with
        | .error e => .error e
        | .ok ic =>
          match collectDurations entries with
          | .error e => .error e
          | .ok ds =>
            match durationStats ds with
            | .error e => .error e
            | .ok (avg, mn, mx, p50, p95, p99) =>
              match statusKeys entries with
              | .error e => .error e
              | .ok ks =>
                .ok { total_count := entries.length
                      error_count := ec
                      warn_count := wc
                      info_count := ic
                      avg_duration_ms := avg
                      min_duration_ms := mn
                      max_duration_ms := mx
                      p50_duration_ms := p50
                      p95_duration_ms := p95
                      p99_duration_ms := p99
                      status_code_distribution := tally ks
                      error_count_by_code := tally (ks.filter fun k => decide (400 ≤ k)) }

/-- The dict `level_to_num = {'ERROR': 3, 'WARN': 2, 'INFO': 1, 'DEBUG': 0}`. -/
def levelToNum : List (String × Nat) := [("ERROR", 3), ("WARN", 2), ("INFO", 1), ("DEBUG", 0)]

/-- Model of `level_to_num.get(min_level, 0) if min_level else 0`: `None` and the empty string
are falsy, and an unknown level name falls back to the dict-lookup default `0`. -/
def minLevelNum : Option String → Nat
  | none => 0
  | some s => if s == "" then 0 else (List.lookup s levelToNum).getD 0

/-- Model of `level_to_num.get(x, 0)` where `x = entry.get('level', 'DEBUG')` may be any decoded
value: a string is looked up with default `0`; any other hashable value is simply not a
key (default `0`); an unhashable `list`/`dict` raises `TypeError`. -/
def levelRank : JVal → Except PyErr Nat
  | .str s => .ok ((List.lookup s levelToNum).getD 0)
  | .arr _ => .error (.typeError "unhashable type: 'list'")
  | .obj _ => .error (.typeError "unhashable type: 'dict'")
  | _ => .ok 0

/-- The duration predicate of `filter_logs` when `min_duration_ms` is supplied:
`duration is None or duration < min_duration_ms` skips the record; the `<` raises
`TypeError` when the present duration is not a number. -/
def durPasses (md : ℚ) (d : JVal) : Except PyErr Bool :=
  if d.isNull then .ok false
  else if !d.isNum then
    .error (.typeError ("'<' not supported between instances of '" ++ d.typeName ++
      "' and 'float'"))
  else .ok (!decide (d.numVal < md))

/-- Membership check `status not in status_codes` through Python `==`: only a number can
equal an int of the list (`200.0 in [200]` and `True in [1]` hold); strings, lists and
dicts are never members (no error: list membership needs no hashing). -/
def statusPasses (cs : List ℤ) (s : JVal) : Bool :=
  !s.isNull && s.isNum && cs.any fun c => decide ((c : ℚ) = s.numVal)

/-- The status-code step of `filter_logs`: the guard is `if status_codes:` — Python
truthiness — so a supplied but *empty* list skips the whole check. -/
def statusStep (codes : Option (List ℤ)) (entry : JVal) : Except PyErr Bool :=
  match codes with
  | none => .ok true
  | some cs =>
    if cs.isEmpty then .ok true
    else
      match dictGet entry "status_code" .null with
      | .error e => .error e
      | .ok s => .ok (statusPasses cs s)

/-- The per-entry predicate of `filter_logs`: level check, then (when supplied) the
duration threshold, then the status-code step, with `continue` at the first failing
check. -/
def keepEntry (minNum : Nat) (minDur : Option ℚ) (codes : Option (List ℤ))
    (entry : JVal) : Except PyErr Bool :=
  match dictGet entry "level" (.str "DEBUG") with
  | .error e => .error e
  | .ok lv =>
    match levelRank lv with
    | .error e => .error e
    | .ok rank =>
      if rank < minNum then .ok false
      else
        match minDur with
        | some md =>
          match dictGet entry "duration_ms" .null with
          | .error e => .error e
          | .ok d =>
            match durPasses md d with
            | .error e => .error e
            | .ok pass => if pass then statusStep codes entry else .ok false
        | none => statusStep codes entry

/-- The loop of `filter_logs`: lines failing `json.loads` are silently dropped
(`except JSONDecodeError: continue`); kept entries appear in input order. -/
def filterGo (minNum : Nat) (minDur : Option ℚ) (codes : Option (List ℤ)) :
    List Line → Except PyErr (List JVal)
  | [] => .ok []
  | .err _ :: rest => filterGo minNum minDur codes rest
  | .ok e :: rest =>
    match keepEntry minNum minDur codes e with
    | .error er => .error er
    | .ok keep =>
      match filterGo minNum minDur codes rest with
      | .error er => .error er
      | .ok out => .ok (if keep then e :: out else out)

/-- Model of `PurePythonProcessor.filter_logs`. -/
def filter_logs (lines : List Line) (minLevel : Option String) (minDur : Option ℚ)
    (codes : Option (List ℤ)) : Except PyErr (List JVal) :=
  filterGo (minLevelNum minLevel) minDur codes lines

/-- Model of `PurePythonProcessor.batch_process`: `validate_logs` first (its count discarded),
then `compute_stats`; returns `(stats, errors)`. -/
def batch_process (lines : List Line) : Except PyErr (LogStats × List Rejection) :=
  match validate_logs lines with
  | .error e => .error e
  | .ok (_, errors) =>
    match compute_stats lines with
    | .error e => .error e
    | .ok stats => .ok (stats, errors)

/-- Whether the `duration_ms` field an entry contributes (if any) is a Python number —
the typing condition under which Python's sort/sum of the duration list cannot raise. -/
def durTypedB (e : JVal) : Bool :=
  match durOf e with
  | some v => v.isNum
  | none => true

/-- Whether the `status_code` field of an entry (if any) is `None` or a Python
number — the typing condition under which the two distribution loops cannot raise. -/
def statusTypedB (e : JVal) : Bool :=
  match statusOf e with
  | some v => v.isNull || v.isNum
  | none => true

/-- Whether a line decodes. -/
def Line.isOk : Line → Bool
  | .ok _ => true
  | .err _ => false

/-- The decoded value of a line (`null` as an irrelevant default for undecodable
lines; only used under `isOk`). -/
def Line.valD : Line → JVal
  | .ok v => v
  | .err _ => .null

/-- Modelled from the spec (§4.2 rule 2): timestamp present and non-empty, else
`MissingTimestamp`. -/
def specCheckTimestamp (entry : JVal) : Except PyErr (Option Reason) :=
  match dictGet entry "timestamp" .null with
  | .error e => .error e
  | .ok ts => .ok (if ts.truthy then none else some .missingTimestamp)

/-- Modelled from the spec (§4.2 rule 3): level in the fixed set, else `InvalidLevel`. -/
def specCheckLevel (entry : JVal) : Except PyErr (Option Reason) :=
  match dictGet entry "level" (.str "") with
  | .error e => .error e
  | .ok lv => .ok (if levelValid lv then none else some (.invalidLevel lv))

/-- Modelled from the spec (§4.2 rule 4): if `duration_ms` is present, numeric and
nonnegative, else `InvalidDuration`. -/
def specCheckDuration (entry : JVal) : Except PyErr (Option Reason) :=
  match dictGet entry "duration_ms" .null with
  | .error e => .error e
  | .ok d =>
    .ok (if !d.isNull && (!d.isNum || decide (d.numVal < 0)) then
      some (.invalidDuration d) else none)

/-- Modelled from the spec (§4.2 rule 5): if `status_code` is present, an integer in
`[100, 599]`, else `InvalidStatusCode`. -/
def specCheckStatus (entry : JVal) : Except PyErr (Option Reason) :=
  match dictGet entry "status_code" .null with
  | .error e => .error e
  | .ok s =>
    .ok (if !s.isNull &&
        (!s.isInt || !(decide (100 ≤ s.numVal) && decide (s.numVal ≤ 599))) then
      some (.invalidStatusCode s) else none)

/-- The spec's ordered rule list for an already-decoded record: timestamp, level,
duration, status code (rule 1, the structural parse, acts one level up on the raw
line). -/
def specChecks : List (JVal → Except PyErr (Option Reason)) :=
  [specCheckTimestamp, specCheckLevel, specCheckDuration, specCheckStatus]

/-- Modelled from the spec (§4.2): run an ordered list of checks and short-circuit at
the first violation, so at most one reason is ever produced. -/
def firstViolation : List (JVal → Except PyErr (Option Reason)) → JVal →
    Except PyErr (Option Reason)
  | [], _ => .ok none
  | c :: cs, entry =>
    match c entry with
    | .error e => .error e
    | .ok (some r) => .ok (some r)
    | .ok none => firstViolation cs entry

/-- Example batch of the spec (§8): a fully valid record (duration `45.2 = 226/5`),
a record with an empty timestamp, and a record with the unknown level `"BAD"`. -/
def exampleBatch : List Line :=
  [ .ok (.obj [("timestamp", .str "2024-01-15T10:30:00Z"), ("level", .str "INFO"),
      ("duration_ms", .float (mkRat 226 5)), ("status_code", .int 200)]),
    .ok (.obj [("timestamp", .str ""), ("level", .str "ERROR")]),
    .ok (.obj [("timestamp", .str "2024-01-15T10:30:01Z"), ("level", .str "BAD")]) ]

/-- Ten records carrying the duration values `10, 20, ..., 100` (spec §8 example). -/
def tenLines : List Line :=
  [ .ok (.obj [("duration_ms", .int 10)]), .ok (.obj [("duration_ms", .int 20)]),
    .ok (.obj [("duration_ms", .int 30)]), .ok (.obj [("duration_ms", .int 40)]),
    .ok (.obj [("duration_ms", .int 50)]), .ok (.obj [("duration_ms", .int 60)]),
    .ok (.obj [("duration_ms", .int 70)]), .ok (.obj [("duration_ms", .int 80)]),
    .ok (.obj [("duration_ms", .int 90)]), .ok (.obj [("duration_ms", .int 100)]) ]

/-- The duration values collected from `tenLines`. -/
def tenDs : List JVal :=
  [.int 10, .int 20, .int 30, .int 40, .int 50, .int 60, .int 70, .int 80, .int 90,
   .int 100]

/-- The ten duration values of `tenLines` as rationals, in ascending order. -/
def castTen : List ℚ :=
  [((10 : ℤ) : ℚ), ((20 : ℤ) : ℚ), ((30 : ℤ) : ℚ), ((40 : ℤ) : ℚ), ((50 : ℤ) : ℚ),
   ((60 : ℤ) : ℚ), ((70 : ℤ) : ℚ), ((80 : ℤ) : ℚ), ((90 : ℤ) : ℚ), ((100 : ℤ) : ℚ)]

/-- The statistics of `tenLines`: `p50 = 60`, `p95 = 100`, `p99 = 100`, average `55`. -/
def tenStats : LogStats := ⟨10, 0, 0, 0, 55, 10, 100, 60, 100, 100, [], []⟩

/-- A record carrying only a duration. -/
def entryA : JVal := .obj [("duration_ms", .int 10)]

/-- A record carrying only a level. -/
def entryB : JVal := .obj [("level", .str "INFO")]

/-- A two-record batch. -/
def linesAB : List Line := [.ok entryA, .ok entryB]

/-- The same two records in the opposite order. -/
def linesBA : List Line := [.ok entryB, .ok entryA]

/-- The statistics of `linesAB` (and of `linesBA`). -/
def statsAB : LogStats := ⟨2, 0, 0, 1, 10, 10, 10, 10, 10, 10, [], []⟩

/-- A decoded value satisfying `isObj` is an object. -/
theorem isObj_exists {e : JVal} (h : e.isObj = true) : ∃ fs, e = .obj fs := by
  cases e <;> simp [JVal.isObj] at h ⊢

/-- Validation of a dict entry never raises: every `entry.get` succeeds. -/
theorem validateEntry_obj_ok (fs : List (String × JVal)) :
    ∃ r, validateEntry (.obj fs) = .ok r := by
  rw [validateEntry]
  simp only [dictGet]
  repeat first | exact ⟨_, rfl⟩ | split

/-- Unfolding of the statistics population on a decodable line. -/
theorem parsedEntries_cons_ok (v : JVal) (rest : List Line) :
    parsedEntries (.ok v :: rest) = v :: parsedEntries rest := rfl

/-- Unfolding of the statistics population on an undecodable line. -/
theorem parsedEntries_cons_err (m : String) (rest : List Line) :
    parsedEntries (.err m :: rest) = parsedEntries rest := rfl

/-- The validation loop, started at any position, returns a count and an ordered
rejection list accounting for every line, provided every decodable line decodes to a
dict (a non-dict decoded entry raises `AttributeError` instead). -/
theorem validateGo_spec (lines : List Line)
    (h : ∀ e ∈ parsedEntries lines, e.isObj = true) (idx : Nat) :
    ∃ c errs, validateGo idx lines = .ok (c, errs) ∧
      c + errs.length = lines.length ∧
      ((errs.map Rejection.position).Sorted (· < ·)) ∧
      (∀ r ∈ errs, idx ≤ r.position) := by
  induction lines generalizing idx with
  | nil => exact ⟨0, [], rfl, rfl, List.sorted_nil, by simp⟩
  | cons l rest ih =>
    cases l with
    | err m =>
      rw [parsedEntries_cons_err] at h
      obtain ⟨c, errs, hg, hsum, hsort, hge⟩ := ih h (idx + 1)
      refine ⟨c, ⟨idx, .parseError m⟩ :: errs, ?_, ?_, ?_, ?_⟩
      · rw [validateGo, validateLine, hg]
      · simpa [Nat.add_comm, Nat.add_assoc, Nat.add_left_comm] using congrArg (· + 1) hsum
      · exact List.sorted_cons.mpr ⟨fun p hp => by
          obtain ⟨r, hr, rfl⟩ := List.mem_map.mp hp
          exact Nat.lt_of_succ_le (hge r hr), hsort⟩
      · intro r hr
        rcases List.mem_cons.mp hr with rfl | hr
        · exact Nat.le_refl idx
        · exact Nat.le_trans (Nat.le_succ idx) (hge r hr)
    | ok v =>
      rw [parsedEntries_cons_ok] at h
      have hv : v.isObj = true := h v (List.mem_cons_self v _)
      have hrest : ∀ e ∈ parsedEntries rest, e.isObj = true :=
        fun e he => h e (List.mem_cons_of_mem _ he)
      obtain ⟨fs, rfl⟩ := isObj_exists hv
      obtain ⟨ro, hro⟩ := validateEntry_obj_ok fs
      obtain ⟨c, errs, hg, hsum, hsort, hge⟩ := ih hrest (idx + 1)
      cases ro with
      | none =>
        refine ⟨c + 1, errs, ?_, ?_, hsort, ?_⟩
        · rw [validateGo, validateLine, hro, hg]
        · simpa [Nat.add_comm, Nat.add_assoc, Nat.add_left_comm] using congrArg (· + 1) hsum
        · exact fun r hr => Nat.le_trans (Nat.le_succ idx) (hge r hr)
      | some r0 =>
        refine ⟨c, ⟨idx, r0⟩ :: errs, ?_, ?_, ?_, ?_⟩
        · rw [validateGo, validateLine, hro, hg]
        · simpa [Nat.add_comm, Nat.add_assoc, Nat.add_left_comm] using congrArg (· + 1) hsum
        · exact List.sorted_cons.mpr ⟨fun p hp => by
            obtain ⟨r, hr, rfl⟩ := List.mem_map.mp hp
            exact Nat.lt_of_succ_le (hge r hr), hsort⟩
        · intro r hr
          rcases List.mem_cons.mp hr with rfl | hr
          · exact Nat.le_refl idx
          · exact Nat.le_trans (Nat.le_succ idx) (hge r hr)

/-- On a batch whose lines all decode, `parse_logs` returns one decoded record per
line, in order. -/
theorem parse_logs_all_ok (lines : List Line) (h : ∀ l ∈ lines, l.isOk = true) :
    parse_logs lines = .ok (lines.map Line.valD) := by
  induction lines with
  | nil => rfl
  | cons l rest ih =>
    cases l with
    | ok v =>
      rw [List.map_cons, parse_logs, ih fun x hx => h x (List.mem_cons_of_mem _ hx)]
      rfl
    | err m => simpa [Line.isOk] using h _ (List.mem_cons_self _ _)

/-- On a batch with a malformed line, `parse_logs` raises the `ValueError` of the
first malformed line, abandoning the whole batch. -/
theorem parse_logs_first_err (pre : List Line) (msg : String) (post : List Line)
    (h : ∀ l ∈ pre, l.isOk = true) :
    parse_logs (pre ++ .err msg :: post) = .error (.valueError ("Parse error: " ++ msg)) := by
  induction pre with
  | nil => rfl
  | cons l rest ih =>
    cases l with
    | ok v =>
      rw [List.cons_append, parse_logs, ih fun x hx => h x (List.mem_cons_of_mem _ hx)]
    | err m => simpa [Line.isOk] using h _ (List.mem_cons_self _ _)

/-- The nested conditionals of `validateEntry` implement exactly the spec's ordered,
short-circuiting rule list. -/
theorem validateEntry_eq_firstViolation (entry : JVal) :
    validateEntry entry = firstViolation specChecks entry := by
  cases entry with
  | obj fs =>
    simp only [validateEntry, firstViolation, specChecks, specCheckTimestamp, specCheckLevel,
      specCheckDuration, specCheckStatus, dictGet]
    cases hts : ((lookupField fs "timestamp").getD JVal.null).truthy
    · simp
    · cases hlv : levelValid ((lookupField fs "level").getD (JVal.str ""))
      · simp [hts]
      · cases hd : (!((lookupField fs "duration_ms").getD JVal.null).isNull &&
            (!((lookupField fs "duration_ms").getD JVal.null).isNum ||
              decide (((lookupField fs "duration_ms").getD JVal.null).numVal < 0)))
        · cases hs : (!((lookupField fs "status_code").getD JVal.null).isNull &&
              (!((lookupField fs "status_code").getD JVal.null).isInt ||
                !(decide (100 ≤ ((lookupField fs "status_code").getD JVal.null).numVal) &&
                  decide (((lookupField fs "status_code").getD JVal.null).numVal ≤ 599)))) <;>
            simp [hts, hlv, hd, hs]
        · simp [hts, hlv, hd]
  | null => rfl
  | bool b => rfl
  | int n => rfl
  | float q => rfl
  | str s => rfl
  | arr l => rfl

/-- Counting a level never raises over dict entries. -/
theorem countLevel_ok_of_obj (lvl : String) (entries : List JVal)
    (h : ∀ e ∈ entries, e.isObj = true) : ∃ c, countLevel lvl entries = .ok c := by
  induction entries with
  | nil => exact ⟨0, rfl⟩
  | cons e rest ih =>
    obtain ⟨fs, rfl⟩ := isObj_exists (h e (List.mem_cons_self _ _))
    obtain ⟨c, hc⟩ := ih fun x hx => h x (List.mem_cons_of_mem _ hx)
    refine ⟨(if pyEqStr ((lookupField fs "level").getD .null) lvl then 1 else 0) + c, ?_⟩
    rw [countLevel]
    simp only [dictGet]
    rw [hc]

/-- Over dict entries the duration comprehension succeeds and collects exactly the
present, non-`None` values, in order. -/
theorem collectDurations_of_obj (entries : List JVal)
    (h : ∀ e ∈ entries, e.isObj = true) :
    collectDurations entries = .ok (entries.filterMap durOf) := by
  induction entries with
  | nil => rfl
  | cons e rest ih =>
    obtain ⟨fs, rfl⟩ := isObj_exists (h e (List.mem_cons_self _ _))
    rw [List.filterMap_cons, collectDurations, ih fun x hx => h x (List.mem_cons_of_mem _ hx)]
    cases hl : lookupField fs "duration_ms" with
    | none => simp [durOf, hl]
    | some v => cases hv : v.isNull <;> simp [durOf, hl, hv]

/-- A successful duration collection forces every entry to be a dict. -/
theorem collectDurations_ok_obj {entries : List JVal} {ds : List JVal}
    (h : collectDurations entries = .ok ds) : ∀ e ∈ entries, e.isObj = true := by
  induction entries generalizing ds with
  | nil => simp
  | cons e rest ih =>
    intro x hx
    cases e with
    | obj fs =>
      rw [collectDurations] at h
      rcases List.mem_cons.mp hx with rfl | hx
      · rfl
      · cases hr : collectDurations rest with
        | error er => rw [hr] at h; cases h
        | ok ds' => exact ih hr x hx
    | null => cases h
    | bool b => cases h
    | int n => cases h
    | float q => cases h
    | str s => cases h
    | arr l => cases h

/-- The duration block succeeds whenever every collected value is a number. -/
theorem durationStats_ok_of_allNums (ds : List JVal) (h : allNums ds = true) :
    ∃ t, durationStats ds = .ok t := by
  rw [durationStats, h]
  simp only [Bool.not_true]
  split
  · exact ⟨_, rfl⟩
  · split
    · simp_all
    · exact ⟨_, rfl⟩

/-- The distribution key collection succeeds over dict entries whose present status
codes are `None` or numbers. -/
theorem statusKeys_ok_of (entries : List JVal)
    (hobj : ∀ e ∈ entries, e.isObj = true)
    (hst : ∀ e ∈ entries, statusTypedB e = true) :
    ∃ ks, statusKeys entries = .ok ks := by
  induction entries with
  | nil => exact ⟨[], rfl⟩
  | cons e rest ih =>
    obtain ⟨fs, rfl⟩ := isObj_exists (hobj e (List.mem_cons_self _ _))
    obtain ⟨ks, hks⟩ := ih (fun x hx => hobj x (List.mem_cons_of_mem _ hx))
      (fun x hx => hst x (List.mem_cons_of_mem _ hx))
    have he := hst _ (List.mem_cons_self _ _)
    rw [statusTypedB] at he
    rw [statusKeys]
    cases hl : lookupField fs "status_code" with
    | none => exact ⟨ks, hks⟩
    | some v =>
      rw [statusOf, lookupField] at he
      rw [show List.lookup "status_code" fs = some v from hl] at he
      cases hnull : v.isNull with
      | true => simp only [hnull, if_true]; exact ⟨ks, hks⟩
      | false =>
        have hnum : v.isNum = true := by simpa [hnull] using he
        simp only [hnull, hnum, if_true, if_false, Bool.false_eq_true]
        rw [hks]
        exact ⟨_, rfl⟩

/-- When every entry carries well-typed durations, all collected values are numbers. -/
theorem allNums_filterMap_durOf (entries : List JVal)
    (hdur : ∀ e ∈ entries, durTypedB e = true) :
    allNums (entries.filterMap durOf) = true := by
  rw [allNums, List.all_eq_true]
  intro v hv
  obtain ⟨e, he, hde⟩ := List.mem_filterMap.mp hv
  have h := hdur e he
  rw [durTypedB, hde] at h
  exact h

/-- With a nonempty population of dict entries whose duration and status fields are
well-typed, `compute_stats` completes. -/
theorem compute_stats_ok_of (lines : List Line)
    (hne : parsedEntries lines ≠ [])
    (hobj : ∀ e ∈ parsedEntries lines, e.isObj = true)
    (hdur : ∀ e ∈ parsedEntries lines, durTypedB e = true)
    (hst : ∀ e ∈ parsedEntries lines, statusTypedB e = true) :
    ∃ st, compute_stats lines = .ok st := by
  obtain ⟨ec, hec⟩ := countLevel_ok_of_obj "ERROR" _ hobj
  obtain ⟨wc, hwc⟩ := countLevel_ok_of_obj "WARN" _ hobj
  obtain ⟨ic, hic⟩ := countLevel_ok_of_obj "INFO" _ hobj
  have hds := collectDurations_of_obj _ hobj
  obtain ⟨⟨avg, mn, mx, p50, p95, p99⟩, ht⟩ :=
    durationStats_ok_of_allNums _ (allNums_filterMap_durOf _ hdur)
  obtain ⟨ks, hks⟩ := statusKeys_ok_of _ hobj hst
  rw [compute_stats]
  simp only [show (parsedEntries lines).isEmpty = false by
      cases hp : parsedEntries lines <;> simp_all,
    hec, hwc, hic, hds, ht, hks, Bool.false_eq_true, if_false]
  exact ⟨_, rfl⟩

/-- With an empty population, `compute_stats` raises its `ValueError`. -/
theorem compute_stats_empty (lines : List Line) (h : parsedEntries lines = []) :
    compute_stats lines = .error (.valueError "No valid log entries found") := by
  rw [compute_stats]
  simp only [h, List.isEmpty_nil, if_true]

/-- A successful `compute_stats` call decomposes into a successful duration collection
and a successful duration block producing exactly the six reported statistics. -/
theorem compute_stats_parts {lines : List Line} {st : LogStats}
    (h : compute_stats lines = .ok st) :
    ∃ ds, collectDurations (parsedEntries lines) = .ok ds ∧
      durationStats ds = .ok (st.avg_duration_ms, st.min_duration_ms, st.max_duration_ms,
        st.p50_duration_ms, st.p95_duration_ms, st.p99_duration_ms) := by
  rw [compute_stats] at h
  split at h
  · cases h
  · split at h
    · cases h
    · split at h
      · cases h
      · split at h
        · cases h
        · split at h
          · cases h
          · split at h
            · cases h
            · split at h
              · cases h
              · injection h with h2
                subst h2
                exact ⟨_, by assumption, by assumption⟩

/-- Indexing a sorted list is monotone in the index. -/
theorem sorted_getD_mono {l : List ℚ} (hs : l.Sorted (· ≤ ·)) {i j : Nat}
    (hij : i ≤ j) (hj : j < l.length) : l.getD i 0 ≤ l.getD j 0 := by
  have hi : i < l.length := lt_of_le_of_lt hij hj
  rw [List.getD_eq_getElem?_getD, List.getD_eq_getElem?_getD,
    List.getElem?_eq_getElem hi, List.getElem?_eq_getElem hj]
  simpa using hs.rel_get_of_le (a := ⟨i, hi⟩) (b := ⟨j, hj⟩) hij

/-- The nearest-rank index is monotone in the percentile fraction. -/
theorem pctIdx_mono (n : Nat) {q q' : ℚ} (h : q ≤ q') :
    pctIdx n q ≤ pctIdx n q' :=
  Nat.floor_mono (mul_le_mul_of_nonneg_left h (by positivity))

/-- Sorting ascending is invariant under permutation of the inputs. -/
theorem insertionSort_map_perm_eq {ds ds' : List JVal} (h : ds.Perm ds') :
    List.insertionSort (· ≤ ·) (ds.map JVal.numVal) =
    List.insertionSort (· ≤ ·) (ds'.map JVal.numVal) := by
  apply List.eq_of_perm_of_sorted (r := (· ≤ ·))
  · exact (List.perm_insertionSort _ _).trans
      ((h.map _).trans (List.perm_insertionSort _ _).symm)
  · exact List.sorted_insertionSort _ _
  · exact List.sorted_insertionSort _ _

/-- Numeric-ness of all durations is invariant under permutation. -/
theorem allNums_perm {ds ds' : List JVal} (h : ds.Perm ds') : allNums ds = allNums ds' := by
  rw [allNums, allNums]
  cases ha : ds'.all JVal.isNum with
  | true =>
    rw [List.all_eq_true] at ha ⊢
    exact fun e he => ha e (h.mem_iff.mp he)
  | false =>
    rw [← Bool.not_eq_true] at ha ⊢
    rw [List.all_eq_true] at ha ⊢
    intro hc
    exact ha fun e he => hc e (h.mem_iff.mpr he)

/-- Emptiness is invariant under permutation. -/
theorem isEmpty_perm {ds ds' : List JVal} (h : ds.Perm ds') : ds.isEmpty = ds'.isEmpty := by
  have := h.length_eq
  cases ds <;> cases ds' <;> simp_all

/-- The whole duration block depends only on the multiset of collected values. -/
theorem durationStats_perm {ds ds' : List JVal} (h : ds.Perm ds') :
    durationStats ds = durationStats ds' := by
  simp only [durationStats, allNums_perm h, isEmpty_perm h, insertionSort_map_perm_eq h]

/-- The three percentiles reported by a successful duration block are ordered. -/
theorem durationStats_mono {ds : List JVal} {avg mn mx p50 p95 p99 : ℚ}
    (h : durationStats ds = .ok (avg, mn, mx, p50, p95, p99)) :
    p50 ≤ p95 ∧ p95 ≤ p99 := by
  rw [durationStats] at h
  split at h
  · injection h with h2
    simp only [Prod.mk.injEq] at h2
    obtain ⟨-, -, -, h50, h95, h99⟩ := h2
    subst h50 h95 h99
    exact ⟨le_refl _, le_refl _⟩
  · rename_i hne
    split at h
    · cases h
    · injection h with h2
      simp only [Prod.mk.injEq] at h2
      obtain ⟨-, -, -, h50, h95, h99⟩ := h2
      subst h50 h95 h99
      have hlen : 0 < (List.insertionSort (· ≤ ·) (ds.map JVal.numVal)).length := by
        rw [List.length_insertionSort, List.length_map]
        cases ds with
        | nil => simp at hne
        | cons a l => simp
      have hs := List.sorted_insertionSort (α := ℚ) (· ≤ ·) (ds.map JVal.numVal)
      constructor
      · apply sorted_getD_mono hs
        · exact min_le_min (pctIdx_mono _ (by norm_num)) (le_refl _)
        · exact lt_of_le_of_lt (min_le_right _ _) (Nat.sub_lt hlen Nat.one_pos)
      · apply sorted_getD_mono hs
        · exact min_le_min (pctIdx_mono _ (by norm_num)) (le_refl _)
        · exact lt_of_le_of_lt (min_le_right _ _) (Nat.sub_lt hlen Nat.one_pos)

/-- A non-`None` result of `.get(key, None)` comes from a present key. -/
theorem getD_null_of_isNull_false {o : Option JVal} {s : JVal}
    (hs : o.getD .null = s) (h : s.isNull = false) : o = some s := by
  cases o with
  | none => simp only [Option.getD_none] at hs; rw [← hs] at h; cases h
  | some v => simp only [Option.getD_some] at hs; rw [hs]

/-- An entry passing the status-code step against a nonempty supplied list carries a
numeric status code that is a member of the list. -/
theorem statusStep_true {cs : List ℤ} {e : JVal} (hcs : cs ≠ [])
    (h : statusStep (some cs) e = .ok true) :
    ∃ s, statusOf e = some s ∧ s.isNull = false ∧ s.isNum = true ∧
      ∃ c ∈ cs, (c : ℚ) = s.numVal := by
  rw [statusStep] at h
  rw [show cs.isEmpty = false by cases cs <;> simp_all] at h
  simp only [Bool.false_eq_true, if_false] at h
  cases e with
  | obj fs =>
    simp only [dictGet] at h
    injection h with h2
    have hpass : statusPasses cs ((lookupField fs "status_code").getD .null) = true := h2
    rw [statusPasses] at hpass
    simp only [Bool.and_eq_true, Bool.not_eq_true'] at hpass
    obtain ⟨⟨hnull, hnum⟩, hany⟩ := hpass
    obtain ⟨c, hc, hceq⟩ := List.any_eq_true.mp hany
    refine ⟨(lookupField fs "status_code").getD .null,
      getD_null_of_isNull_false rfl hnull, hnull, hnum, c, hc, of_decide_eq_true hceq⟩
  | null => cases h
  | bool b => cases h
  | int n => cases h
  | float q => cases h
  | str s => cases h
  | arr l => cases h

/-- An entry kept by the filter when a nonempty status-code list is supplied carries a
numeric member of the list. -/
theorem keepEntry_status (mn : Nat) (md : Option ℚ) {cs : List ℤ} {e : JVal}
    (hcs : cs ≠ []) (h : keepEntry mn md (some cs) e = .ok true) :
    ∃ s, statusOf e = some s ∧ s.isNull = false ∧ s.isNum = true ∧
      ∃ c ∈ cs, (c : ℚ) = s.numVal := by
  rw [keepEntry.eq_def] at h
  cases e with
  | obj fs =>
    simp only [dictGet] at h
    split at h
    · cases h
    · split at h
      · cases h
      · cases md with
        | none => exact statusStep_true hcs h
        | some q =>
          split at h
          · split at h
            · cases h
            · split at h
              · exact statusStep_true hcs h
              · cases h
          · exact statusStep_true hcs h
  | null => cases h
  | bool b => cases h
  | int n => cases h
  | float q => cases h
  | str s => cases h
  | arr l => cases h

/-- Every record of the filter loop's output passed the status-code membership test
when a nonempty status-code list was supplied. -/
theorem filterGo_status {mn : Nat} {md : Option ℚ} {cs : List ℤ} (hcs : cs ≠ [])
    (lines : List Line) (out : List JVal)
    (h : filterGo mn md (some cs) lines = .ok out) :
    ∀ e ∈ out, ∃ s, statusOf e = some s ∧ s.isNull = false ∧ s.isNum = true ∧
      ∃ c ∈ cs, (c : ℚ) = s.numVal := by
  induction lines generalizing out with
  | nil =>
    injection h with h2
    subst h2
    intro e he
    cases he
  | cons l rest ih =>
    cases l with
    | err m => exact ih out h
    | ok v =>
      rw [filterGo] at h
      split at h
      · cases h
      · rename_i keep hkeep
        split at h
        · cases h
        · rename_i out' hout'
          injection h with h2
          subst h2
          intro x hx
          cases keep with
          | false =>
            simp only [Bool.false_eq_true, if_false] at hx
            exact ih out' hout' x hx
          | true =>
            simp only [if_true] at hx
            rcases List.mem_cons.mp hx with rfl | hx
            · exact keepEntry_status mn md hcs hkeep
            · exact ih out' hout' x hx

/-- Evaluation of `compute_stats` on the ten-duration example batch. -/
theorem compute_stats_tenLines : compute_stats tenLines = .ok tenStats := by
  have h50 : pctIdx 10 (50 / 100) = 5 := by rw [pctIdx, Nat.floor_eq_iff] <;> norm_num
  have h95 : pctIdx 10 (95 / 100) = 9 := by rw [pctIdx, Nat.floor_eq_iff] <;> norm_num
  have h99 : pctIdx 10 (99 / 100) = 9 := by rw [pctIdx, Nat.floor_eq_iff] <;> norm_num
  have hsorted : List.insertionSort (· ≤ ·) (tenDs.map JVal.numVal) = castTen := rfl
  have hstats : durationStats tenDs = .ok (55, 10, 100, 60, 100, 100) := by
    rw [durationStats]
    simp only [show tenDs.isEmpty = false from rfl, show allNums tenDs = true from rfl,
      hsorted, show castTen.length = 10 from rfl, h50, h95, h99,
      show min 5 9 = 5 from rfl, show min 9 9 = 9 from rfl,
      show castTen.getD 0 0 = ((10 : ℤ) : ℚ) from rfl,
      show castTen.getD 9 0 = ((100 : ℤ) : ℚ) from rfl,
      show castTen.getD 5 0 = ((60 : ℤ) : ℚ) from rfl, Bool.not_true, if_false]
    norm_num [pyAvg, castTen, List.sum_cons, List.sum_nil]
  rw [compute_stats]
  simp only [show (parsedEntries tenLines).isEmpty = false from rfl,
    show countLevel "ERROR" (parsedEntries tenLines) = .ok 0 from rfl,
    show countLevel "WARN" (parsedEntries tenLines) = .ok 0 from rfl,
    show countLevel "INFO" (parsedEntries tenLines) = .ok 0 from rfl,
    show collectDurations (parsedEntries tenLines) = .ok tenDs from rfl,
    hstats,
    show statusKeys (parsedEntries tenLines) = .ok [] from rfl]
  rfl

/-- Evaluation of `compute_stats` on the two-record batch `linesAB`. -/
theorem compute_stats_linesAB : compute_stats linesAB = .ok statsAB := by
  have h50 : pctIdx 1 (50 / 100) = 0 := by rw [pctIdx, Nat.floor_eq_iff] <;> norm_num
  have h95 : pctIdx 1 (95 / 100) = 0 := by rw [pctIdx, Nat.floor_eq_iff] <;> norm_num
  have h99 : pctIdx 1 (99 / 100) = 0 := by rw [pctIdx, Nat.floor_eq_iff] <;> norm_num
  have hstats : durationStats [JVal.int 10] = .ok (10, 10, 10, 10, 10, 10) := by
    rw [durationStats]
    simp only [show ([JVal.int 10] : List JVal).isEmpty = false from rfl,
      show allNums [JVal.int 10] = true from rfl,
      show List.insertionSort (· ≤ ·) (([JVal.int 10] : List JVal).map JVal.numVal) =
        [((10 : ℤ) : ℚ)] from rfl,
      show ([((10 : ℤ) : ℚ)] : List ℚ).length = 1 from rfl, h50, h95, h99,
      show min 0 0 = 0 from rfl,
      show ([((10 : ℤ) : ℚ)] : List ℚ).getD 0 0 = ((10 : ℤ) : ℚ) from rfl,
      Bool.not_true, Bool.false_eq_true, if_false]
    norm_num [pyAvg]
  rw [compute_stats]
  simp only [show (parsedEntries linesAB).isEmpty = false from rfl,
    show countLevel "ERROR" (parsedEntries linesAB) = .ok 0 from rfl,
    show countLevel "WARN" (parsedEntries linesAB) = .ok 0 from rfl,
    show countLevel "INFO" (parsedEntries linesAB) = .ok 1 from rfl,
    show collectDurations (parsedEntries linesAB) = .ok [JVal.int 10] from rfl,
    hstats,
    show statusKeys (parsedEntries linesAB) = .ok [] from rfl]
  rfl

/-- Evaluation of `compute_stats` on the reordered two-record batch `linesBA`. -/
theorem compute_stats_linesBA : compute_stats linesBA = .ok statsAB := by
  have h50 : pctIdx 1 (50 / 100) = 0 := by rw [pctIdx, Nat.floor_eq_iff] <;> norm_num
  have h95 : pctIdx 1 (95 / 100) = 0 := by rw [pctIdx, Nat.floor_eq_iff] <;> norm_num
  have h99 : pctIdx 1 (99 / 100) = 0 := by rw [pctIdx, Nat.floor_eq_iff] <;> norm_num
  have hstats : durationStats [JVal.int 10] = .ok (10, 10, 10, 10, 10, 10) := by
    rw [durationStats]
    simp only [show ([JVal.int 10] : List JVal).isEmpty = false from rfl,
      show allNums [JVal.int 10] = true from rfl,
      show List.insertionSort (· ≤ ·) (([JVal.int 10] : List JVal).map JVal.numVal) =
        [((10 : ℤ) : ℚ)] from rfl,
      show ([((10 : ℤ) : ℚ)] : List ℚ).length = 1 from rfl, h50, h95, h99,
      show min 0 0 = 0 from rfl,
      show ([((10 : ℤ) : ℚ)] : List ℚ).getD 0 0 = ((10 : ℤ) : ℚ) from rfl,
      Bool.not_true, Bool.false_eq_true, if_false]
    norm_num [pyAvg]
  rw [compute_stats]
  simp only [show (parsedEntries linesBA).isEmpty = false from rfl,
    show countLevel "ERROR" (parsedEntries linesBA) = .ok 0 from rfl,
    show countLevel "WARN" (parsedEntries linesBA) = .ok 0 from rfl,
    show countLevel "INFO" (parsedEntries linesBA) = .ok 1 from rfl,
    show collectDurations (parsedEntries linesBA) = .ok [JVal.int 10] from rfl,
    hstats,
    show statusKeys (parsedEntries linesBA) = .ok [] from rfl]
  rfl

/-- C1 (amended): on a batch containing a malformed line, `parse_logs` raises
`ValueError` at the first malformed line, abandoning the whole batch; only on a batch
with no malformed line does it return one decoded record per input line, in order.
(The claim as stated — one result per line, failures isolated per position — is
refuted by `claim_C1_counterexample`.) -/
theorem claim_C1 (lines : List Line) :
    ((∀ l ∈ lines, l.isOk = true) → parse_logs lines = .ok (lines.map Line.valD)) ∧
    (∀ pre msg post, lines = pre ++ .err msg :: post → (∀ l ∈ pre, l.isOk = true) →
      parse_logs lines = .error (.valueError ("Parse error: " ++ msg))) :=
  ⟨parse_logs_all_ok lines, fun pre msg post heq hpre => by
    rw [heq]; exact parse_logs_first_err pre msg post hpre⟩

/-- C1 counterexample: a two-line batch whose first line is malformed makes
`parse_logs` raise a batch-level `ValueError` instead of returning one result per
line. -/
theorem claim_C1_counterexample :
    parse_logs [Line.err "Expecting value", Line.ok (JVal.obj [])] =
      .error (.valueError "Parse error: Expecting value") := rfl

/-- C1 witness: both conjuncts of `claim_C1` applied at concrete batches. -/
theorem claim_C1_witness :
    parse_logs [Line.ok (JVal.obj [])] = .ok [JVal.obj []] ∧
    parse_logs [Line.ok (JVal.obj []), Line.err "bad token"] =
      .error (.valueError ("Parse error: " ++ "bad token")) :=
  ⟨(claim_C1 [Line.ok (JVal.obj [])]).1 (by decide),
   (claim_C1 [Line.ok (JVal.obj []), Line.err "bad token"]).2
     [Line.ok (JVal.obj [])] "bad token" [] rfl (by decide)⟩

/-- C2 (amended): `compute_stats` fails with the `EmptyPopulation` error
(`ValueError "No valid log entries found"`) when zero lines parse, and completes
whenever at least one line parses, every parsed entry is a JSON object, and the
present `duration_ms` and `status_code` values are well-typed (numeric or `None`).
(The claim as stated — that oddly typed field values never abort the call — is
refuted by `claim_C2_counterexample`.) -/
theorem claim_C2 (lines : List Line)
    (hobj : ∀ e ∈ parsedEntries lines, e.isObj = true)
    (hdur : ∀ e ∈ parsedEntries lines, durTypedB e = true)
    (hst : ∀ e ∈ parsedEntries lines, statusTypedB e = true) :
    (parsedEntries lines = [] →
      compute_stats lines = .error (.valueError "No valid log entries found")) ∧
    (parsedEntries lines ≠ [] → ∃ st, compute_stats lines = .ok st) :=
  ⟨compute_stats_empty lines, fun hne => compute_stats_ok_of lines hne hobj hdur hst⟩

/-- C2 counterexample: a batch whose single line parses to a record with the
string-valued `duration_ms "abc"` makes `compute_stats` raise a `TypeError` (in
Python, from `sum` over the duration list) even though one line parsed. -/
theorem claim_C2_counterexample :
    compute_stats [Line.ok (JVal.obj [("duration_ms", JVal.str "abc")])] =
      .error (.typeError "unsupported comparison or operand on duration_ms values") ∧
    (parsedEntries [Line.ok (JVal.obj [("duration_ms", JVal.str "abc")])]).length = 1 :=
  ⟨rfl, rfl⟩

/-- C2 witness: `claim_C2` applied at a batch with one malformed and one well-typed
parsed line. -/
theorem claim_C2_witness :
    ∃ st, compute_stats [Line.err "bad", Line.ok (JVal.obj [("duration_ms", JVal.int 7)])] =
      .ok st :=
  (claim_C2 [Line.err "bad", Line.ok (JVal.obj [("duration_ms", JVal.int 7)])]
    (by decide) (by decide) (by decide)).2
    (List.length_pos.mp (by
      rw [show (parsedEntries [Line.err "bad",
        Line.ok (JVal.obj [("duration_ms", JVal.int 7)])]).length = 1 from rfl]
      exact Nat.one_pos))

/-- C3 (amended): on every batch whose decodable lines decode to JSON objects,
`validate_logs` returns a pair `(valid_count, rejections)` with
`valid_count + |rejections| = |lines|` and rejection positions strictly increasing
(input order).  (The claim over all batches is refuted by `claim_C3_counterexample`:
a line decoding to a non-object aborts the call with `AttributeError`.) -/
theorem claim_C3 (lines : List Line)
    (hobj : ∀ e ∈ parsedEntries lines, e.isObj = true) :
    ∃ c errs, validate_logs lines = .ok (c, errs) ∧
      c + errs.length = lines.length ∧
      ((errs.map Rejection.position).Sorted (· < ·)) := by
  obtain ⟨c, errs, hg, hsum, hsort, -⟩ := validateGo_spec lines hobj 1
  exact ⟨c, errs, hg, hsum, hsort⟩

/-- C3 counterexample: the single-line batch `["5"]` decodes to the integer `5`, on
which `entry.get('timestamp')` raises `AttributeError`, so `validate_logs` returns no
pair at all (in Python the call raises). -/
theorem claim_C3_counterexample :
    validate_logs [Line.ok (JVal.int 5)] =
      .error (.attributeError "'int' object has no attribute 'get'") := rfl

/-- C3 witness: `claim_C3` applied at a batch with one valid and one malformed line. -/
theorem claim_C3_witness :
    ∃ c errs, validate_logs [Line.ok (JVal.obj [("timestamp", JVal.str "t"),
        ("level", JVal.str "INFO")]), Line.err "oops"] = .ok (c, errs) ∧
      c + errs.length = [Line.ok (JVal.obj [("timestamp", JVal.str "t"),
        ("level", JVal.str "INFO")]), Line.err "oops"].length ∧
      ((errs.map Rejection.position).Sorted (· < ·)) :=
  claim_C3 [Line.ok (JVal.obj [("timestamp", JVal.str "t"), ("level", JVal.str "INFO")]),
    Line.err "oops"] (by decide)

/-- C4 (confirmed): whenever the two independent calls complete, `batch_process`
returns exactly the pair of the statistics of `compute_stats` and the rejection list
of `validate_logs` on the same input. -/
theorem claim_C4 (lines : List Line) (st : LogStats) (c : Nat) (errs : List Rejection)
    (h1 : validate_logs lines = .ok (c, errs)) (h2 : compute_stats lines = .ok st) :
    batch_process lines = .ok (st, errs) := by
  rw [batch_process, h1, h2]

/-- C4 witness: `claim_C4` applied at a concrete batch with one valid record and one
rejection. -/
theorem claim_C4_witness :
    batch_process [Line.ok (JVal.obj [("timestamp", JVal.str "t"),
        ("level", JVal.str "INFO")]), Line.err "oops"] =
      .ok (⟨1, 0, 0, 1, 0, 0, 0, 0, 0, 0, [], []⟩, [⟨2, .parseError "oops"⟩]) :=
  claim_C4 [Line.ok (JVal.obj [("timestamp", JVal.str "t"), ("level", JVal.str "INFO")]),
    Line.err "oops"] ⟨1, 0, 0, 1, 0, 0, 0, 0, 0, 0, [], []⟩ 1
    [⟨2, .parseError "oops"⟩] rfl rfl

/-- C5 (amended): whenever `compute_stats` completes on a batch with a nonempty
duration collection, each percentile `q ∈ {0.50, 0.95, 0.99}` is the element of the
ascending sort of the collected durations at index `min(⌊n·q⌋, n-1)` (nearest rank, no
interpolation) and the average is the arithmetic mean of the same collection; over the
ten duration values `10, 20, ..., 100` it reports `p50 = 60`, `p95 = 100` and average
`55`.  (The claim as stated — asserting this for every batch in which a parsed record
carries `duration_ms` — is refuted by `claim_C5_counterexample`, where such a batch
makes the call abort before returning percentiles.) -/
theorem claim_C5 :
    (∀ (lines : List Line) (st : LogStats) (ds : List JVal),
      compute_stats lines = .ok st →
      collectDurations (parsedEntries lines) = .ok ds → ds ≠ [] →
      ∃ sorted : List ℚ, sorted.Perm (ds.map JVal.numVal) ∧ sorted.Sorted (· ≤ ·) ∧
        st.p50_duration_ms =
          sorted.getD (min ⌊(sorted.length : ℚ) * (50 / 100)⌋₊ (sorted.length - 1)) 0 ∧
        st.p95_duration_ms =
          sorted.getD (min ⌊(sorted.length : ℚ) * (95 / 100)⌋₊ (sorted.length - 1)) 0 ∧
        st.p99_duration_ms =
          sorted.getD (min ⌊(sorted.length : ℚ) * (99 / 100)⌋₊ (sorted.length - 1)) 0 ∧
        st.avg_duration_ms = sorted.sum / sorted.length) ∧
    (compute_stats tenLines = .ok tenStats ∧ tenStats.p50_duration_ms = 60 ∧
      tenStats.p95_duration_ms = 100 ∧ tenStats.avg_duration_ms = 55) := by
  constructor
  · intro lines st ds h hds hne
    obtain ⟨ds0, hds0, ht⟩ := compute_stats_parts h
    rw [hds0] at hds
    injection hds with hdd
    subst hdd
    rw [durationStats] at ht
    split at ht
    · rename_i hemp
      exact absurd (by simpa using hemp) hne
    · split at ht
      · cases ht
      · injection ht with h3
        simp only [Prod.mk.injEq] at h3
        obtain ⟨havg, -, -, h50, h95, h99⟩ := h3
        exact ⟨List.insertionSort (· ≤ ·) (ds0.map JVal.numVal),
          List.perm_insertionSort _ _, List.sorted_insertionSort _ _,
          h50.symm, h95.symm, h99.symm, havg.symm⟩
  · exact ⟨compute_stats_tenLines, rfl, rfl, rfl⟩

/-- C5 counterexample: a batch whose single record carries `duration_ms = 5` together
with the string status code `"abc"` makes `compute_stats` raise a `TypeError` instead
of returning percentiles, although a parsed record carries `duration_ms`. -/
theorem claim_C5_counterexample :
    compute_stats [Line.ok (JVal.obj [("duration_ms", JVal.int 5),
        ("status_code", JVal.str "abc")])] =
      .error (.typeError "unhashable or unorderable status_code of type 'str'") ∧
    durOf (JVal.obj [("duration_ms", JVal.int 5), ("status_code", JVal.str "abc")]) =
      some (JVal.int 5) :=
  ⟨rfl, rfl⟩

/-- C5 witness: the general conjunct of `claim_C5` applied at the ten-duration batch. -/
theorem claim_C5_witness :
    ∃ sorted : List ℚ, sorted.Perm (tenDs.map JVal.numVal) ∧ sorted.Sorted (· ≤ ·) ∧
      tenStats.p50_duration_ms =
        sorted.getD (min ⌊(sorted.length : ℚ) * (50 / 100)⌋₊ (sorted.length - 1)) 0 ∧
      tenStats.p95_duration_ms =
        sorted.getD (min ⌊(sorted.length : ℚ) * (95 / 100)⌋₊ (sorted.length - 1)) 0 ∧
      tenStats.p99_duration_ms =
        sorted.getD (min ⌊(sorted.length : ℚ) * (99 / 100)⌋₊ (sorted.length - 1)) 0 ∧
      tenStats.avg_duration_ms = sorted.sum / sorted.length :=
  claim_C5.1 tenLines tenStats tenDs compute_stats_tenLines rfl (by simp [tenDs])

/-- C6 (confirmed): `validate_logs` checks, per record, in the fixed order parse,
timestamp, level, duration, status code, short-circuiting at the first violation — the
per-entry validator equals the spec's ordered first-violation rule list, an
undecodable line yields exactly the one `ParseError` rejection, and on the three-line
example batch the call returns `valid_count = 1` with rejections at position 2
(missing timestamp) and position 3 (invalid level `"BAD"`). -/
theorem claim_C6 :
    (∀ entry : JVal, validateEntry entry = firstViolation specChecks entry) ∧
    (∀ idx msg, validateLine idx (.err msg) = .ok (some ⟨idx, .parseError msg⟩)) ∧
    validate_logs exampleBatch =
      .ok (1, [⟨2, .missingTimestamp⟩, ⟨3, .invalidLevel (.str "BAD")⟩]) :=
  ⟨validateEntry_eq_firstViolation, fun _ _ => rfl, rfl⟩

/-- C7 (confirmed): the percentiles reported by `compute_stats` satisfy
`p50 ≤ p95 ≤ p99`, and permuting the input lines never changes the reported
percentiles (they depend only on the multiset of duration values). -/
theorem claim_C7 (lines lines' : List Line) (st st' : LogStats)
    (hp : lines.Perm lines') (h : compute_stats lines = .ok st)
    (h' : compute_stats lines' = .ok st') :
    (st.p50_duration_ms ≤ st.p95_duration_ms ∧
      st.p95_duration_ms ≤ st.p99_duration_ms) ∧
    st.p50_duration_ms = st'.p50_duration_ms ∧
    st.p95_duration_ms = st'.p95_duration_ms ∧
    st.p99_duration_ms = st'.p99_duration_ms := by
  obtain ⟨ds, hds, ht⟩ := compute_stats_parts h
  obtain ⟨ds', hds', ht'⟩ := compute_stats_parts h'
  refine ⟨durationStats_mono ht, ?_⟩
  have hobj := collectDurations_ok_obj hds
  have hobj' := collectDurations_ok_obj hds'
  rw [collectDurations_of_obj _ hobj] at hds
  rw [collectDurations_of_obj _ hobj'] at hds'
  injection hds with e1
  injection hds' with e2
  have hdsp : ds.Perm ds' := by
    rw [← e1, ← e2]
    exact (hp.filterMap _).filterMap durOf
  rw [durationStats_perm hdsp, ht'] at ht
  injection ht with h3
  simp only [Prod.mk.injEq] at h3
  exact ⟨h3.2.2.2.1.symm, h3.2.2.2.2.1.symm, h3.2.2.2.2.2.symm⟩

/-- C7 witness: `claim_C7` applied to a two-record batch and its reversal. -/
theorem claim_C7_witness :
    ((statsAB.p50_duration_ms ≤ statsAB.p95_duration_ms ∧
      statsAB.p95_duration_ms ≤ statsAB.p99_duration_ms) ∧
    statsAB.p50_duration_ms = statsAB.p50_duration_ms ∧
    statsAB.p95_duration_ms = statsAB.p95_duration_ms ∧
    statsAB.p99_duration_ms = statsAB.p99_duration_ms) :=
  claim_C7 linesAB linesBA statsAB statsAB
    (List.Perm.swap (Line.ok entryB) (Line.ok entryA) [])
    compute_stats_linesAB compute_stats_linesBA

/-- C8 (amended): whenever a *nonempty* status-code list is supplied, a record appears
in the filter output only if it carries a present, non-`None`, numeric `status_code`
that is a member of the supplied list.  (The claim as stated — including the empty
supplied set — is refuted by `claim_C8_counterexample`: `if status_codes:` is falsy on
an empty list, so the check is silently skipped.) -/
theorem claim_C8 (lines : List Line) (ml : Option String) (md : Option ℚ)
    (cs : List ℤ) (out : List JVal) (hcs : cs ≠ [])
    (h : filter_logs lines ml md (some cs) = .ok out) :
    ∀ e ∈ out, ∃ s, statusOf e = some s ∧ s.isNull = false ∧ s.isNum = true ∧
      ∃ c ∈ cs, (c : ℚ) = s.numVal := by
  rw [filter_logs] at h
  exact filterGo_status hcs lines out h

/-- C8 counterexample: with the empty status-code list supplied, a record carrying no
`status_code` at all still appears in the output. -/
theorem claim_C8_counterexample :
    filter_logs [Line.ok (JVal.obj [])] none none (some []) = .ok [JVal.obj []] ∧
    statusOf (JVal.obj []) = none :=
  ⟨rfl, rfl⟩

/-- C8 witness: `claim_C8` applied at a record carrying status code `200` against the
supplied list `[200]`. -/
theorem claim_C8_witness :
    ∃ s, statusOf (JVal.obj [("status_code", JVal.int 200)]) = some s ∧
      s.isNull = false ∧ s.isNum = true ∧
      ∃ c ∈ [(200 : ℤ)], (c : ℚ) = s.numVal :=
  claim_C8 [Line.ok (JVal.obj [("status_code", JVal.int 200)])] none none [200]
    [JVal.obj [("status_code", JVal.int 200)]] (List.cons_ne_nil _ _) rfl
    (JVal.obj [("status_code", JVal.int 200)]) (List.mem_cons_self _ _)

/-- C9 (amended): whenever `compute_stats` completes on a batch none of whose parsed
records carries a non-`None` `duration_ms`, all six duration statistics — average,
min, max, p50, p95, p99 — are exactly `0.0`.  (The claim as stated — asserting
completion for every such batch — is refuted by `claim_C9_counterexample`.) -/
theorem claim_C9 (lines : List Line) (st : LogStats)
    (h : compute_stats lines = .ok st)
    (hnd : ∀ e ∈ parsedEntries lines, (durOf e).isNone = true) :
    st.avg_duration_ms = 0 ∧ st.min_duration_ms = 0 ∧ st.max_duration_ms = 0 ∧
    st.p50_duration_ms = 0 ∧ st.p95_duration_ms = 0 ∧ st.p99_duration_ms = 0 := by
  obtain ⟨ds, hds, ht⟩ := compute_stats_parts h
  have hobj := collectDurations_ok_obj hds
  rw [collectDurations_of_obj _ hobj] at hds
  injection hds with h2
  have hnil : List.filterMap durOf (parsedEntries lines) = [] := by
    rw [List.filterMap_eq_nil_iff]
    intro e he
    exact Option.isNone_iff_eq_none.mp (hnd e he)
  rw [hnil] at h2
  rw [← h2] at ht
  have hz : durationStats ([] : List JVal) = .ok (0, 0, 0, 0, 0, 0) := rfl
  rw [hz] at ht
  injection ht with h3
  simp only [Prod.mk.injEq] at h3
  obtain ⟨ha, hb, hc, hd, he, hf⟩ := h3
  exact ⟨ha.symm, hb.symm, hc.symm, hd.symm, he.symm, hf.symm⟩

/-- C9 counterexample: a batch whose single parsed record carries no `duration_ms` but
a string `status_code "abc"` makes `compute_stats` raise a `TypeError` (in Python from
`code >= 400`) instead of reporting zeroed duration statistics. -/
theorem claim_C9_counterexample :
    compute_stats [Line.ok (JVal.obj [("status_code", JVal.str "abc")])] =
      .error (.typeError "unhashable or unorderable status_code of type 'str'") ∧
    durOf (JVal.obj [("status_code", JVal.str "abc")]) = none ∧
    (parsedEntries [Line.ok (JVal.obj [("status_code", JVal.str "abc")])]).length = 1 :=
  ⟨rfl, rfl, rfl⟩

/-- C9 witness: `claim_C9` applied at a single-record batch without durations. -/
theorem claim_C9_witness :
    (⟨1, 0, 0, 0, 0, 0, 0, 0, 0, 0, [], []⟩ : LogStats).avg_duration_ms = 0 ∧
    (⟨1, 0, 0, 0, 0, 0, 0, 0, 0, 0, [], []⟩ : LogStats).min_duration_ms = 0 ∧
    (⟨1, 0, 0, 0, 0, 0, 0, 0, 0, 0, [], []⟩ : LogStats).max_duration_ms = 0 ∧
    (⟨1, 0, 0, 0, 0, 0, 0, 0, 0, 0, [], []⟩ : LogStats).p50_duration_ms = 0 ∧
    (⟨1, 0, 0, 0, 0, 0, 0, 0, 0, 0, [], []⟩ : LogStats).p95_duration_ms = 0 ∧
    (⟨1, 0, 0, 0, 0, 0, 0, 0, 0, 0, [], []⟩ : LogStats).p99_duration_ms = 0 :=
  claim_C9 [Line.ok (JVal.obj [("timestamp", JVal.str "t")])]
    ⟨1, 0, 0, 0, 0, 0, 0, 0, 0, 0, [], []⟩ rfl (by decide)

/-- C10 (confirmed): a non-empty `min_level` string outside
`{ERROR, WARN, INFO, DEBUG}` (such as `"CRITICAL"`) silently falls back to severity
rank `0`, so `filter_logs` behaves exactly as if no minimum level had been supplied:
the level predicate excludes no record. -/
theorem claim_C10 (lines : List Line) (s : String) (md : Option ℚ)
    (cs : Option (List ℤ)) (h1 : s ≠ "") (h2 : List.lookup s levelToNum = none) :
    minLevelNum (some s) = 0 ∧
      filter_logs lines (some s) md cs = filter_logs lines none md cs := by
  have hm : minLevelNum (some s) = 0 := by
    rw [minLevelNum, h2]
    simp [h1]
  exact ⟨hm, by rw [filter_logs, filter_logs, hm, minLevelNum]⟩

/-- C10 witness: `claim_C10` applied with `min_level = "CRITICAL"` over a one-record
batch. -/
theorem claim_C10_witness :
    minLevelNum (some "CRITICAL") = 0 ∧
    filter_logs [Line.ok (JVal.obj [("level", JVal.str "ERROR")])] (some "CRITICAL")
        none none =
      filter_logs [Line.ok (JVal.obj [("level", JVal.str "ERROR")])] none none none :=
  claim_C10 [Line.ok (JVal.obj [("level", JVal.str "ERROR")])] "CRITICAL" none none
    (by decide) rfl

end PurePython
